import Mathlib

/-!
A shallow embedding of the single-header SVG library
(`simple_svg_1.0.0.hpp`, namespace `svg`) together with proofs of the
specification's claims about it.

Modelling conventions:
* C++ `double` fields are modelled as `ℚ` (exact arithmetic over a linear
  order; the claims are about ordering, min/max folds and affine maps).
* `std::vector` is modelled as `List`, with `push_back` appending at the
  end of the list.
* The library's `optional<T>` is modelled as `Option T`; its throwing
  `operator->` is modelled by `optionalDeref`, which returns an
  `Except` error on the absent value.
* Serialisation (`toString` members) is modelled as `String` building;
  the C++ stream insertion of numbers is modelled by `fmtQ` and
  `std::to_string` by `fmtFixed6` (see their doc comments).
-/

namespace svg

/-- Embeds `svg::Point` (fields `x`, `y`, both `double`). -/
@[ext]
structure Point where
  x : ℚ
  y : ℚ
deriving DecidableEq, Repr

/-- The shift a shape's `offset(Point)` member applies to each stored
point: both coordinates are incremented by the offset's. -/
def Point.offsetBy (o : Point) (p : Point) : Point :=
  ⟨p.x + o.x, p.y + o.y⟩

/-- Embeds `svg::Rect` (fields `minPt`, `maxPt`). -/
@[ext]
structure Rect where
  minPt : Point
  maxPt : Point
deriving DecidableEq, Repr

/-- The default-constructed `Rect`: field initialisers set both corners
to `{0, 0}`. -/
def Rect.default : Rect := ⟨⟨0, 0⟩, ⟨0, 0⟩⟩

/-- Embeds the constructor `Rect(const Point &p, double w = 0, double h = 0)`:
`minPt = p`, `maxPt = (p.x + w, p.y + h)`. -/
def Rect.ofCorner (p : Point) (w h : ℚ) : Rect :=
  ⟨p, ⟨p.x + w, p.y + h⟩⟩

/-- Embeds `Rect::width()`. -/
def Rect.width (r : Rect) : ℚ := r.maxPt.x - r.minPt.x

/-- Embeds `Rect::height()`. -/
def Rect.height (r : Rect) : ℚ := r.maxPt.y - r.minPt.y

/-- Embeds `Rect::include(const Point &p)`: each corner coordinate is
replaced by `p`'s when `p` lies strictly outside it. -/
def Rect.includePoint (r : Rect) (p : Point) : Rect :=
  { minPt := ⟨if p.x < r.minPt.x then p.x else r.minPt.x,
              if p.y < r.minPt.y then p.y else r.minPt.y⟩
    maxPt := ⟨if p.x > r.maxPt.x then p.x else r.maxPt.x,
              if p.y > r.maxPt.y then p.y else r.maxPt.y⟩ }

/-- Embeds `Rect::include(const Rect &r)`: include both corners. -/
def Rect.includeRect (r : Rect) (s : Rect) : Rect :=
  (r.includePoint s.minPt).includePoint s.maxPt

/-- Translation of a `Rect` by an offset, corner-wise: the claims compare
a translated shape's bounding box with "the original bounding box with
its corners translated by the same offset". -/
def Rect.offsetBy (o : Point) (r : Rect) : Rect :=
  ⟨Point.offsetBy o r.minPt, Point.offsetBy o r.maxPt⟩

/-- One iteration of the loop body of `getMinPoint`: lower each
coordinate of the accumulator to the candidate's when smaller. -/
def pointMinStep (m q : Point) : Point :=
  ⟨if q.x < m.x then q.x else m.x, if q.y < m.y then q.y else m.y⟩

/-- One iteration of the loop body of `getMaxPoint`. -/
def pointMaxStep (m q : Point) : Point :=
  ⟨if q.x > m.x then q.x else m.x, if q.y > m.y then q.y else m.y⟩

/-- Embeds `getMinPoint`: empty input gives the invalid optional;
otherwise the accumulator starts at `points[0]` and the loop runs over
the whole vector (index 0 included again, harmlessly). -/
def getMinPoint : List Point → Option Point
  | [] => none
  | p :: tl => some ((p :: tl).foldl pointMinStep p)

/-- Embeds `getMaxPoint`. -/
def getMaxPoint : List Point → Option Point
  | [] => none
  | p :: tl => some ((p :: tl).foldl pointMaxStep p)

/-- Embeds `optional<T>::operator->`: accessing an invalid optional
throws (`throw std::exception()`), modelled as an `Except.error`;
a valid optional yields its value. -/
def optionalDeref {α : Type} : Option α → Except String α
  | none => Except.error "absent value"
  | some a => Except.ok a

/-- Embeds `svg::Dimensions`. -/
structure Dimensions where
  width : ℚ
  height : ℚ
deriving DecidableEq, Repr

/-- Embeds `Layout::Origin`. -/
inductive Origin where
  | TopLeft
  | BottomLeft
  | TopRight
  | BottomRight
deriving DecidableEq, Repr

/-- Embeds `svg::Layout`. -/
structure Layout where
  dimensions : Dimensions
  scale : ℚ
  origin : Origin
  origin_offset : Point
deriving DecidableEq, Repr

/-- The default `Layout` constructor arguments:
`Dimensions(400, 300)`, `BottomLeft`, scale `1`, offset `(0, 0)`. -/
def Layout.default : Layout :=
  ⟨⟨400, 300⟩, 1, Origin.BottomLeft, ⟨0, 0⟩⟩

/-- Embeds `translateX`. -/
def translateX (x : ℚ) (layout : Layout) : ℚ :=
  if layout.origin = Origin.BottomRight ∨ layout.origin = Origin.TopRight then
    layout.dimensions.width - ((x + layout.origin_offset.x) * layout.scale)
  else
    (layout.origin_offset.x + x) * layout.scale

/-- Embeds `translateY`. -/
def translateY (y : ℚ) (layout : Layout) : ℚ :=
  if layout.origin = Origin.BottomLeft ∨ layout.origin = Origin.BottomRight then
    layout.dimensions.height - ((y + layout.origin_offset.y) * layout.scale)
  else
    (layout.origin_offset.y + y) * layout.scale

/-- Embeds `translateScale`. -/
def translateScale (dimension : ℚ) (layout : Layout) : ℚ :=
  dimension * layout.scale

/-- Models the C++ stream insertion (`ss << value`) of a numeric value.
Every number serialized in the theorems below is integer-valued, where
the default stream formatting prints the plain decimal digits, exactly
`Int`'s `toString`.  Non-integral rationals are rendered as the exact
reduced fraction, standing in for the stream's 6-significant-digit
decimal output; no theorem below serializes a non-integral value. -/
def fmtQ (q : ℚ) : String :=
  if q.den = 1 then toString q.num else toString q.num ++ "/" ++ toString q.den

/-- Models `std::to_string(double)` (used only for the `viewBox`
attribute): fixed-point `%f` output with six digits after the decimal
point, rounding to nearest. -/
def fmtFixed6 (q : ℚ) : String :=
  let n : ℤ := round (q * 1000000)
  let sign := if n < 0 then "-" else ""
  let m := n.natAbs
  let fracStr := toString (m % 1000000)
  sign ++ toString (m / 1000000) ++ "." ++
    String.mk (List.replicate (6 - fracStr.length) '0') ++ fracStr

/-- Embeds the `attribute` helper (the Lean keyword forces the changed
name): `name="value<unit>" `, with a trailing blank.  The template's
stream insertion of the value is modelled by the callers pre-rendering
numeric values with `fmtQ`. -/
def attrStr (name value unit : String) : String :=
  name ++ "=\"" ++ value ++ unit ++ "\" "

/-- Embeds `elemStart`. -/
def elemStart (element_name : String) : String :=
  "\t<" ++ element_name ++ " "

/-- Embeds `elemEnd`. -/
def elemEnd (element_name : String) : String :=
  "</" ++ element_name ++ ">\n"

/-- Embeds `emptyElemEnd`. -/
def emptyElemEnd : String := "/>\n"

/-- Embeds the `Color::Defaults` enumeration. -/
inductive ColorDefaults where
  | Transparent
  | Aqua
  | Black
  | Blue
  | Brown
  | Cyan
  | Fuchsia
  | Green
  | Lime
  | Magenta
  | Orange
  | Purple
  | Red
  | Silver
  | White
  | Yellow
deriving DecidableEq, Repr

/-- Embeds `svg::Color`: either the transparent state or an RGB triple. -/
structure Color where
  transparent : Bool
  red : ℤ
  green : ℤ
  blue : ℤ
deriving DecidableEq, Repr

/-- Embeds the constructor `Color(int r, int g, int b)`. -/
def Color.ofRGB (r g b : ℤ) : Color := ⟨false, r, g, b⟩

/-- Embeds the constructor `Color(Defaults color)`: the palette switch;
the `Transparent` value falls into the `default:` branch which sets the
transparent flag. -/
def Color.ofDefault : ColorDefaults → Color
  | ColorDefaults.Aqua => ⟨false, 0, 255, 255⟩
  | ColorDefaults.Black => ⟨false, 0, 0, 0⟩
  | ColorDefaults.Blue => ⟨false, 0, 0, 255⟩
  | ColorDefaults.Brown => ⟨false, 165, 42, 42⟩
  | ColorDefaults.Cyan => ⟨false, 0, 255, 255⟩
  | ColorDefaults.Fuchsia => ⟨false, 255, 0, 255⟩
  | ColorDefaults.Green => ⟨false, 0, 128, 0⟩
  | ColorDefaults.Lime => ⟨false, 0, 255, 0⟩
  | ColorDefaults.Magenta => ⟨false, 255, 0, 255⟩
  | ColorDefaults.Orange => ⟨false, 255, 165, 0⟩
  | ColorDefaults.Purple => ⟨false, 128, 0, 128⟩
  | ColorDefaults.Red => ⟨false, 255, 0, 0⟩
  | ColorDefaults.Silver => ⟨false, 192, 192, 192⟩
  | ColorDefaults.White => ⟨false, 255, 255, 255⟩
  | ColorDefaults.Yellow => ⟨false, 255, 255, 0⟩
  | ColorDefaults.Transparent => ⟨true, 0, 0, 0⟩

/-- Embeds `Color::toString`. -/
def Color.toString (c : Color) : String :=
  if c.transparent then "transparent"
  else "rgb(" ++ ToString.toString c.red ++ "," ++ ToString.toString c.green
       ++ "," ++ ToString.toString c.blue ++ ")"

/-- Embeds `svg::Fill` (owns one `Color`). -/
structure Fill where
  color : Color
deriving DecidableEq, Repr

/-- Embeds `Fill::toString`: unconditionally emits the `fill` attribute
with the color's rendering. -/
def Fill.toString (f : Fill) : String :=
  attrStr "fill" f.color.toString ""

/-- Embeds `svg::Stroke`. -/
structure Stroke where
  width : ℚ
  color : Color
  nonScaling : Bool
deriving DecidableEq, Repr

/-- Embeds `Stroke::toString`: negative width is the "no stroke"
sentinel and yields the empty fragment; otherwise emit `stroke-width`,
`stroke` and, when non-scaling, `vector-effect`. -/
def Stroke.toString (s : Stroke) : String :=
  if s.width < 0 then ""
  else
    attrStr "stroke-width" (fmtQ s.width) "" ++
    attrStr "stroke" s.color.toString "" ++
    (if s.nonScaling then attrStr "vector-effect" "non-scaling-stroke" "" else "")

/-- Embeds `svg::Font`. -/
structure Font where
  size : ℚ
  family : String
deriving DecidableEq, Repr

/-- Embeds `Font::toString`. -/
def Font.toString (f : Font) : String :=
  attrStr "font-size" (fmtQ f.size) "" ++ attrStr "font-family" f.family ""

/-- Renders one point of a coordinate list as the serialisation loops of
`Polygon::toString`, `Polyline::toString` and `Path::toString` do:
`x,y ` with a trailing blank. -/
def pointListItem (acc : String) (p : Point) : String :=
  acc ++ fmtQ p.x ++ "," ++ fmtQ p.y ++ " "

/-- Embeds `svg::Circle` (stores `center` and `radius`). -/
structure Circle where
  center : Point
  radius : ℚ
  fill : Fill
  stroke : Stroke
deriving DecidableEq, Repr

/-- Embeds the `Circle` constructor: `radius = diameter / 2`. -/
def Circle.ofDiameter (center : Point) (diameter : ℚ) (fill : Fill) (stroke : Stroke) : Circle :=
  ⟨center, diameter / 2, fill, stroke⟩

/-- Embeds `Circle::toString`. -/
def Circle.toString (c : Circle) : String :=
  elemStart "circle" ++ attrStr "cx" (fmtQ c.center.x) "" ++
  attrStr "cy" (fmtQ c.center.y) "" ++ attrStr "r" (fmtQ c.radius) "" ++
  c.fill.toString ++ c.stroke.toString ++ emptyElemEnd

/-- Embeds `Circle::offset`. -/
def Circle.offset (c : Circle) (o : Point) : Circle :=
  { c with center := Point.offsetBy o c.center }

/-- Embeds `Circle::MinMax`. -/
def Circle.MinMax (c : Circle) : Rect :=
  Rect.ofCorner ⟨c.center.x - c.radius, c.center.y - c.radius⟩ (c.radius * 2) (c.radius * 2)

/-- Embeds `svg::Elipse` (the source's spelling; stores the half
extents). -/
structure Elipse where
  center : Point
  radius_width : ℚ
  radius_height : ℚ
  fill : Fill
  stroke : Stroke
deriving DecidableEq, Repr

/-- Embeds the `Elipse` constructor: stores `width / 2` and `height / 2`. -/
def Elipse.ofExtent (center : Point) (width height : ℚ) (fill : Fill) (stroke : Stroke) : Elipse :=
  ⟨center, width / 2, height / 2, fill, stroke⟩

/-- Embeds `Elipse::toString`. -/
def Elipse.toString (e : Elipse) : String :=
  elemStart "ellipse" ++ attrStr "cx" (fmtQ e.center.x) "" ++
  attrStr "cy" (fmtQ e.center.y) "" ++ attrStr "rx" (fmtQ e.radius_width) "" ++
  attrStr "ry" (fmtQ e.radius_height) "" ++
  e.fill.toString ++ e.stroke.toString ++ emptyElemEnd

/-- Embeds `Elipse::offset`. -/
def Elipse.offset (e : Elipse) (o : Point) : Elipse :=
  { e with center := Point.offsetBy o e.center }

/-- Embeds `Elipse::MinMax`. -/
def Elipse.MinMax (e : Elipse) : Rect :=
  Rect.ofCorner ⟨e.center.x - e.radius_width, e.center.y - e.radius_height⟩
    (e.radius_width * 2) (e.radius_height * 2)

/-- Embeds `svg::Rectangle`. -/
structure Rectangle where
  edge : Point
  width : ℚ
  height : ℚ
  fill : Fill
  stroke : Stroke
deriving DecidableEq, Repr

/-- Embeds `Rectangle::toString`. -/
def Rectangle.toString (r : Rectangle) : String :=
  elemStart "rect" ++ attrStr "x" (fmtQ r.edge.x) "" ++
  attrStr "y" (fmtQ r.edge.y) "" ++ attrStr "width" (fmtQ r.width) "" ++
  attrStr "height" (fmtQ r.height) "" ++
  r.fill.toString ++ r.stroke.toString ++ emptyElemEnd

/-- Embeds `Rectangle::offset`. -/
def Rectangle.offset (r : Rectangle) (o : Point) : Rectangle :=
  { r with edge := Point.offsetBy o r.edge }

/-- Embeds `Rectangle::MinMax`. -/
def Rectangle.MinMax (r : Rectangle) : Rect :=
  Rect.ofCorner r.edge r.width r.height

/-- Embeds `svg::Line`. -/
structure Line where
  start_point : Point
  end_point : Point
  stroke : Stroke
deriving DecidableEq, Repr

/-- Embeds `Line::toString` (the fill a `Line` owns is always the
default transparent `Fill()` and is not serialized). -/
def Line.toString (l : Line) : String :=
  elemStart "line" ++ attrStr "x1" (fmtQ l.start_point.x) "" ++
  attrStr "y1" (fmtQ l.start_point.y) "" ++ attrStr "x2" (fmtQ l.end_point.x) "" ++
  attrStr "y2" (fmtQ l.end_point.y) "" ++
  l.stroke.toString ++ emptyElemEnd

/-- Embeds `Line::offset`. -/
def Line.offset (l : Line) (o : Point) : Line :=
  { l with start_point := Point.offsetBy o l.start_point,
           end_point := Point.offsetBy o l.end_point }

/-- Embeds `Line::MinMax`: `Rect rtn(start_point); rtn.include(end_point)`. -/
def Line.MinMax (l : Line) : Rect :=
  (Rect.ofCorner l.start_point 0 0).includePoint l.end_point

/-- Embeds `svg::Polygon`. -/
structure Polygon where
  points : List Point
  fill : Fill
  stroke : Stroke
deriving DecidableEq, Repr

/-- Embeds `Polygon::toString`. -/
def Polygon.toString (pg : Polygon) : String :=
  elemStart "polygon" ++ "points=\"" ++
  pg.points.foldl pointListItem "" ++ "\" " ++
  pg.fill.toString ++ pg.stroke.toString ++ emptyElemEnd

/-- Embeds `Polygon::offset`. -/
def Polygon.offset (pg : Polygon) (o : Point) : Polygon :=
  { pg with points := pg.points.map (Point.offsetBy o) }

/-- Embeds `Polygon::MinMax`: empty point list gives the default rect,
otherwise fold `include` over all points starting from
`Rect(points.front())`. -/
def Polygon.MinMax (pg : Polygon) : Rect :=
  match pg.points with
  | [] => Rect.default
  | p :: tl => (p :: tl).foldl Rect.includePoint (Rect.ofCorner p 0 0)

/-- Embeds `svg::Polyline`. -/
structure Polyline where
  points : List Point
  fill : Fill
  stroke : Stroke
deriving DecidableEq, Repr

/-- Embeds `Polyline::toString`. -/
def Polyline.toString (pl : Polyline) : String :=
  elemStart "polyline" ++ "points=\"" ++
  pl.points.foldl pointListItem "" ++ "\" " ++
  pl.fill.toString ++ pl.stroke.toString ++ emptyElemEnd

/-- Embeds `Polyline::offset`. -/
def Polyline.offset (pl : Polyline) (o : Point) : Polyline :=
  { pl with points := pl.points.map (Point.offsetBy o) }

/-- Embeds `Polyline::MinMax`. -/
def Polyline.MinMax (pl : Polyline) : Rect :=
  match pl.points with
  | [] => Rect.default
  | p :: tl => (p :: tl).foldl Rect.includePoint (Rect.ofCorner p 0 0)

/-- Embeds `svg::Path` (field `paths`: a vector of subpaths, each a
vector of points). -/
structure Path where
  paths : List (List Point)
  fill : Fill
  stroke : Stroke
deriving DecidableEq, Repr

/-- Embeds `Path::startNewSubPath` acting on the `paths` field: append
a fresh empty subpath when the vector is empty or the last subpath is
non-empty. -/
def startNewSubPath : List (List Point) → List (List Point)
  | [] => [[]]
  | [l] => if 0 < l.length then [l, []] else [l]
  | l :: tl => l :: startNewSubPath tl

/-- Embeds `Path::operator<<` acting on the `paths` field: push the
point onto the last subpath (`paths.back().push_back(point)`).  On an
empty vector the C++ `back()` is an invalid access; that state is
unreachable through the API (see `C9_path_subpath_invariant`) and is
mapped to the empty vector. -/
def pushPoint : List (List Point) → Point → List (List Point)
  | [], _ => []
  | [l], p => [l ++ [p]]
  | l :: l2 :: tl, p => l :: pushPoint (l2 :: tl) p

/-- The `paths` field of a fresh `Path`: both constructors run
`startNewSubPath()` on the empty vector, leaving one empty subpath. -/
def freshPaths : List (List Point) := startNewSubPath []

/-- The serialisation of one subpath in `Path::toString`: empty
subpaths are skipped, non-empty ones emit `M`, the points, then `z `. -/
def subPathItem (acc : String) (sub : List Point) : String :=
  if sub.isEmpty then acc
  else acc ++ "M" ++ sub.foldl pointListItem "" ++ "z "

/-- Embeds `Path::toString`. -/
def Path.toString (pa : Path) : String :=
  elemStart "path" ++ "d=\"" ++
  pa.paths.foldl subPathItem "" ++ "\" " ++ "fill-rule=\"evenodd\" " ++
  pa.fill.toString ++ pa.stroke.toString ++ emptyElemEnd

/-- Embeds `Path::offset`: shift every point of every subpath. -/
def Path.offset (pa : Path) (o : Point) : Path :=
  { pa with paths := pa.paths.map (fun sub => sub.map (Point.offsetBy o)) }

/-- Embeds `Path::MinMax`: an empty subpath vector returns the default
rect; otherwise the code seeds `Rect rtn(paths.front().front())` — an
invalid access when the first subpath is empty (`front()` of an empty
vector), modelled as the absent result — and folds `include` over every
point of every subpath. -/
def Path.MinMax (pa : Path) : Option Rect :=
  match pa.paths with
  | [] => some Rect.default
  | [] :: _ => none
  | (p :: sub) :: tl =>
      some (((p :: sub) :: tl).foldl
        (fun r subpath => subpath.foldl Rect.includePoint r)
        (Rect.ofCorner p 0 0))

/-- Embeds `svg::Text`. -/
structure Text where
  origin : Point
  content : String
  font : Font
  fill : Fill
  stroke : Stroke
deriving DecidableEq, Repr

/-- Embeds `Text::toString`. -/
def Text.toString (t : Text) : String :=
  elemStart "text" ++ attrStr "x" (fmtQ t.origin.x) "" ++
  attrStr "y" (fmtQ t.origin.y) "" ++
  t.fill.toString ++ t.stroke.toString ++ t.font.toString ++
  ">" ++ t.content ++ elemEnd "text"

/-- Embeds `Text::offset`. -/
def Text.offset (t : Text) (o : Point) : Text :=
  { t with origin := Point.offsetBy o t.origin }

/-- Embeds `Text::MinMax`: `Rect rtn(origin)`, the degenerate rect at
the origin. -/
def Text.MinMax (t : Text) : Rect :=
  Rect.ofCorner t.origin 0 0

/-- The closed set of `Shape` subclasses the specification covers
(`LineChart`, the demo charting convenience, is outside the core). -/
inductive ShapeV where
  | circle : Circle → ShapeV
  | elipse : Elipse → ShapeV
  | rectangle : Rectangle → ShapeV
  | line : Line → ShapeV
  | polygon : Polygon → ShapeV
  | polyline : Polyline → ShapeV
  | path : Path → ShapeV
  | text : Text → ShapeV
deriving DecidableEq, Repr

/-- Virtual dispatch of `Shape::toString`. -/
def ShapeV.toString : ShapeV → String
  | ShapeV.circle c => c.toString
  | ShapeV.elipse e => e.toString
  | ShapeV.rectangle r => r.toString
  | ShapeV.line l => l.toString
  | ShapeV.polygon pg => pg.toString
  | ShapeV.polyline pl => pl.toString
  | ShapeV.path pa => pa.toString
  | ShapeV.text t => t.toString

/-- Virtual dispatch of `Shape::offset`. -/
def ShapeV.offset : ShapeV → Point → ShapeV
  | ShapeV.circle c, o => ShapeV.circle (c.offset o)
  | ShapeV.elipse e, o => ShapeV.elipse (e.offset o)
  | ShapeV.rectangle r, o => ShapeV.rectangle (r.offset o)
  | ShapeV.line l, o => ShapeV.line (l.offset o)
  | ShapeV.polygon pg, o => ShapeV.polygon (pg.offset o)
  | ShapeV.polyline pl, o => ShapeV.polyline (pl.offset o)
  | ShapeV.path pa, o => ShapeV.path (pa.offset o)
  | ShapeV.text t, o => ShapeV.text (t.offset o)

/-- Virtual dispatch of `Shape::MinMax`; `none` marks the one failing
computation (`Path` with an empty first subpath). -/
def ShapeV.MinMax : ShapeV → Option Rect
  | ShapeV.circle c => some c.MinMax
  | ShapeV.elipse e => some e.MinMax
  | ShapeV.rectangle r => some r.MinMax
  | ShapeV.line l => some l.MinMax
  | ShapeV.polygon pg => some pg.MinMax
  | ShapeV.polyline pl => some pl.MinMax
  | ShapeV.path pa => pa.MinMax
  | ShapeV.text t => some t.MinMax

/-- Embeds `svg::Document`. -/
structure Document where
  file_name : String
  layout : Layout
  region : Rect
  body_nodes_str : String
deriving DecidableEq, Repr

/-- Embeds the `Document` constructor: stores the file name and the
layout; `region` is the default-constructed zero rect and the body
string is empty. -/
def mkDocument (file_name : String) (layout : Layout) : Document :=
  ⟨file_name, layout, Rect.default, ""⟩

/-- Embeds `Document::operator<<`: concatenate the shape's
serialisation onto the body and fold the shape's bounding box into the
region.  The result is absent exactly when the shape's `MinMax` fails
(see `ShapeV.MinMax`). -/
def Document.append (d : Document) (s : ShapeV) : Option Document :=
  (s.MinMax).map fun box =>
    { d with body_nodes_str := d.body_nodes_str ++ s.toString,
             region := d.region.includeRect box }

/-- Appending a whole list of shapes in order. -/
def appendAll (d : Document) : List ShapeV → Option Document
  | [] => some d
  | s :: tl => (d.append s).bind fun d2 => appendAll d2 tl

/-- The individual bounding boxes of a list of shapes; absent when any
shape's `MinMax` fails. -/
def minMaxList : List ShapeV → Option (List Rect)
  | [] => some []
  | s :: tl =>
      match s.MinMax, minMaxList tl with
      | some b, some bs => some (b :: bs)
      | _, _ => none

/-- Embeds `Document::toString`: the XML preamble, the `svg` opening
tag whose `width`, `height` and `viewBox` are derived from `region`,
the accumulated body, and the closing tag.  Neither the stored `layout`
nor the stored `file_name` is read. -/
def Document.toString (d : Document) : String :=
  "<?xml " ++ attrStr "version" "1.0" "" ++ attrStr "standalone" "no" "" ++
  "?>\n<!DOCTYPE svg PUBLIC \"-//W3C//DTD SVG 1.1//EN\" " ++
  "\"http://www.w3.org/Graphics/SVG/1.1/DTD/svg11.dtd\">\n<svg " ++
  attrStr "width" (fmtQ d.region.width) "px" ++
  attrStr "height" (fmtQ d.region.height) "px" ++
  attrStr "xmlns" "http://www.w3.org/2000/svg" "" ++
  attrStr "viewBox"
    (fmtFixed6 d.region.minPt.x ++ " " ++ fmtFixed6 d.region.minPt.y ++ " " ++
     fmtFixed6 d.region.width ++ " " ++ fmtFixed6 d.region.height) "" ++
  attrStr "version" "1.1" "" ++ ">\n" ++ d.body_nodes_str ++ elemEnd "svg"

/-- The two mutating operations the `Path` API exposes after
construction. -/
inductive PathOp where
  | push : Point → PathOp
  | newSub : PathOp
deriving DecidableEq, Repr

/-- One API call acting on the `paths` field. -/
def pathStep (s : List (List Point)) : PathOp → List (List Point)
  | PathOp.push p => pushPoint s p
  | PathOp.newSub => startNewSubPath s

/-- The `paths` field after a sequence of API calls on a freshly
constructed `Path`. -/
def runPathOps (ops : List PathOp) : List (List Point) :=
  ops.foldl pathStep freshPaths

/-- The `Path` representation invariant: the subpath vector is
non-empty, and every subpath except possibly the last is non-empty. -/
def PathsInv (s : List (List Point)) : Prop :=
  s ≠ [] ∧ ∀ sub ∈ s.dropLast, sub ≠ []

/-- The side condition under which a shape's translated bounding box is
the translation of its bounding box: point-list shapes must have at
least one point (an empty `Polygon`/`Polyline` reports the fixed
default rect, which translation does not move, and a `Path` whose
subpath vector were empty would do the same). -/
def ShapeV.anchored : ShapeV → Prop
  | ShapeV.polygon pg => pg.points ≠ []
  | ShapeV.polyline pl => pl.points ≠ []
  | ShapeV.path pa => pa.paths ≠ []
  | _ => True

/-! ### Basic rewriting lemmas for the `include` fold -/

theorem ite_lt_eq_min (a b : ℚ) : (if a < b then a else b) = min a b := by
  rcases lt_or_ge a b with h | h
  · simp [h, min_eq_left h.le]
  · simp [not_lt.mpr h, min_eq_right h]

theorem ite_gt_eq_max (a b : ℚ) : (if a > b then a else b) = max a b := by
  rcases lt_or_ge b a with h | h
  · simp [h, max_eq_left h.le]
  · simp [not_lt.mpr h, max_eq_right h]

theorem includePoint_def (r : Rect) (p : Point) :
    r.includePoint p =
      ⟨⟨min p.x r.minPt.x, min p.y r.minPt.y⟩,
       ⟨max p.x r.maxPt.x, max p.y r.maxPt.y⟩⟩ := by
  simp [Rect.includePoint, ite_lt_eq_min, ite_gt_eq_max]

theorem includePoint_swap (r : Rect) (a b : Point) :
    (r.includePoint a).includePoint b = (r.includePoint b).includePoint a := by
  simp only [includePoint_def]
  exact congrArg₂ Rect.mk
    (congrArg₂ Point.mk (min_left_comm _ _ _) (min_left_comm _ _ _))
    (congrArg₂ Point.mk (max_left_comm _ _ _) (max_left_comm _ _ _))

theorem foldl_includePoint_perm {ps ps' : List Point} (h : List.Perm ps ps') :
    ∀ r : Rect, ps.foldl Rect.includePoint r = ps'.foldl Rect.includePoint r := by
  induction h with
  | nil => intro r; rfl
  | cons x _ ih => intro r; simpa using ih (r.includePoint x)
  | swap x y l => intro r; simp [List.foldl, includePoint_swap]
  | trans _ _ ih1 ih2 => intro r; rw [ih1 r, ih2 r]

theorem includeRect_swap (r : Rect) (a b : Rect) :
    (r.includeRect a).includeRect b = (r.includeRect b).includeRect a := by
  have h : ∀ s : Rect, ∀ u v : Point,
      ((s.includePoint u).includePoint v).includeRect b
        = ((s.includeRect b).includePoint u).includePoint v := by
    intro s u v
    simp only [Rect.includeRect]
    rw [includePoint_swap (s.includePoint u) v b.minPt,
        includePoint_swap s u b.minPt,
        includePoint_swap ((s.includePoint b.minPt).includePoint u) v b.maxPt,
        includePoint_swap (s.includePoint b.minPt) u b.maxPt]
  simpa [Rect.includeRect] using h r a.minPt a.maxPt

theorem foldl_includeRect_perm {rs rs' : List Rect} (h : List.Perm rs rs') :
    ∀ r : Rect, rs.foldl Rect.includeRect r = rs'.foldl Rect.includeRect r := by
  induction h with
  | nil => intro r; rfl
  | cons x _ ih => intro r; simpa using ih (r.includeRect x)
  | swap x y l => intro r; simp [List.foldl, includeRect_swap]
  | trans _ _ ih1 ih2 => intro r; rw [ih1 r, ih2 r]

/-! ### Componentwise characterisation of the folds -/

theorem foldr_min_min (a : ℚ) (l : List ℚ) :
    ∀ b : ℚ, l.foldr min (min a b) = min a (l.foldr min b) := by
  induction l with
  | nil => intro b; rfl
  | cons q tl ih =>
      intro b
      simp only [List.foldr, ih b, min_left_comm]

theorem foldr_max_max (a : ℚ) (l : List ℚ) :
    ∀ b : ℚ, l.foldr max (max a b) = max a (l.foldr max b) := by
  induction l with
  | nil => intro b; rfl
  | cons q tl ih =>
      intro b
      simp only [List.foldr, ih b, max_left_comm]

theorem foldl_includePoint_minPt_x (ps : List Point) :
    ∀ r : Rect, (ps.foldl Rect.includePoint r).minPt.x
      = (ps.map Point.x).foldr min r.minPt.x := by
  induction ps with
  | nil => intro r; rfl
  | cons p tl ih =>
      intro r
      simp only [List.foldl, List.map, List.foldr]
      rw [ih, includePoint_def, ← foldr_min_min]

theorem foldl_includePoint_minPt_y (ps : List Point) :
    ∀ r : Rect, (ps.foldl Rect.includePoint r).minPt.y
      = (ps.map Point.y).foldr min r.minPt.y := by
  induction ps with
  | nil => intro r; rfl
  | cons p tl ih =>
      intro r
      simp only [List.foldl, List.map, List.foldr]
      rw [ih, includePoint_def, ← foldr_min_min]

theorem foldl_includePoint_maxPt_x (ps : List Point) :
    ∀ r : Rect, (ps.foldl Rect.includePoint r).maxPt.x
      = (ps.map Point.x).foldr max r.maxPt.x := by
  induction ps with
  | nil => intro r; rfl
  | cons p tl ih =>
      intro r
      simp only [List.foldl, List.map, List.foldr]
      rw [ih, includePoint_def, ← foldr_max_max]

theorem foldl_includePoint_maxPt_y (ps : List Point) :
    ∀ r : Rect, (ps.foldl Rect.includePoint r).maxPt.y
      = (ps.map Point.y).foldr max r.maxPt.y := by
  induction ps with
  | nil => intro r; rfl
  | cons p tl ih =>
      intro r
      simp only [List.foldl, List.map, List.foldr]
      rw [ih, includePoint_def, ← foldr_max_max]

theorem pointMinStep_def (m q : Point) :
    pointMinStep m q = ⟨min q.x m.x, min q.y m.y⟩ := by
  simp [pointMinStep, ite_lt_eq_min]

theorem pointMaxStep_def (m q : Point) :
    pointMaxStep m q = ⟨max q.x m.x, max q.y m.y⟩ := by
  simp [pointMaxStep, ite_gt_eq_max]

theorem foldl_pointMinStep_x (ps : List Point) :
    ∀ m : Point, (ps.foldl pointMinStep m).x = (ps.map Point.x).foldr min m.x := by
  induction ps with
  | nil => intro m; rfl
  | cons p tl ih =>
      intro m
      simp only [List.foldl, List.map, List.foldr]
      rw [ih, pointMinStep_def, ← foldr_min_min]

theorem foldl_pointMinStep_y (ps : List Point) :
    ∀ m : Point, (ps.foldl pointMinStep m).y = (ps.map Point.y).foldr min m.y := by
  induction ps with
  | nil => intro m; rfl
  | cons p tl ih =>
      intro m
      simp only [List.foldl, List.map, List.foldr]
      rw [ih, pointMinStep_def, ← foldr_min_min]

theorem foldl_pointMaxStep_x (ps : List Point) :
    ∀ m : Point, (ps.foldl pointMaxStep m).x = (ps.map Point.x).foldr max m.x := by
  induction ps with
  | nil => intro m; rfl
  | cons p tl ih =>
      intro m
      simp only [List.foldl, List.map, List.foldr]
      rw [ih, pointMaxStep_def, ← foldr_max_max]

theorem foldl_pointMaxStep_y (ps : List Point) :
    ∀ m : Point, (ps.foldl pointMaxStep m).y = (ps.map Point.y).foldr max m.y := by
  induction ps with
  | nil => intro m; rfl
  | cons p tl ih =>
      intro m
      simp only [List.foldl, List.map, List.foldr]
      rw [ih, pointMaxStep_def, ← foldr_max_max]

theorem foldr_min_le_init (a : ℚ) (l : List ℚ) : l.foldr min a ≤ a := by
  induction l with
  | nil => exact le_refl a
  | cons q tl ih => exact le_trans (min_le_right _ _) ih

theorem foldr_min_le_mem (a : ℚ) {l : List ℚ} {x : ℚ} (h : x ∈ l) :
    l.foldr min a ≤ x := by
  induction l with
  | nil => cases h
  | cons q tl ih =>
      rcases List.mem_cons.mp h with h | h
      · subst h; exact min_le_left _ _
      · exact le_trans (min_le_right _ _) (ih h)

theorem foldr_min_attained (a : ℚ) (l : List ℚ) :
    l.foldr min a = a ∨ l.foldr min a ∈ l := by
  induction l with
  | nil => exact Or.inl rfl
  | cons q tl ih =>
      rcases min_choice q (tl.foldr min a) with h | h
      · exact Or.inr (by rw [List.foldr, h]; exact List.mem_cons_self q tl)
      · rcases ih with h' | h'
        · exact Or.inl (by rw [List.foldr, h, h'])
        · exact Or.inr (by rw [List.foldr, h]; exact List.mem_cons_of_mem q h')

theorem le_foldr_max_init (a : ℚ) (l : List ℚ) : a ≤ l.foldr max a := by
  induction l with
  | nil => exact le_refl a
  | cons q tl ih => exact le_trans ih (le_max_right _ _)

theorem mem_le_foldr_max (a : ℚ) {l : List ℚ} {x : ℚ} (h : x ∈ l) :
    x ≤ l.foldr max a := by
  induction l with
  | nil => cases h
  | cons q tl ih =>
      rcases List.mem_cons.mp h with h | h
      · subst h; exact le_max_left _ _
      · exact le_trans (ih h) (le_max_right _ _)

theorem foldr_max_attained (a : ℚ) (l : List ℚ) :
    l.foldr max a = a ∨ l.foldr max a ∈ l := by
  induction l with
  | nil => exact Or.inl rfl
  | cons q tl ih =>
      rcases max_choice q (tl.foldr max a) with h | h
      · exact Or.inr (by rw [List.foldr, h]; exact List.mem_cons_self q tl)
      · rcases ih with h' | h'
        · exact Or.inl (by rw [List.foldr, h, h'])
        · exact Or.inr (by rw [List.foldr, h]; exact List.mem_cons_of_mem q h')

/-! ### Translation commutes with the bounding-box folds -/

theorem min_add_right (a b c : ℚ) : min (a + c) (b + c) = min a b + c := by
  rcases le_total a b with h | h
  · rw [min_eq_left h, min_eq_left (add_le_add_right h c)]
  · rw [min_eq_right h, min_eq_right (add_le_add_right h c)]

theorem max_add_right (a b c : ℚ) : max (a + c) (b + c) = max a b + c := by
  rcases le_total a b with h | h
  · rw [max_eq_right h, max_eq_right (add_le_add_right h c)]
  · rw [max_eq_left h, max_eq_left (add_le_add_right h c)]

theorem includePoint_offsetBy (o : Point) (r : Rect) (p : Point) :
    (Rect.offsetBy o r).includePoint (Point.offsetBy o p)
      = Rect.offsetBy o (r.includePoint p) := by
  simp only [includePoint_def, Rect.offsetBy, Point.offsetBy]
  exact congrArg₂ Rect.mk
    (congrArg₂ Point.mk (min_add_right _ _ _) (min_add_right _ _ _))
    (congrArg₂ Point.mk (max_add_right _ _ _) (max_add_right _ _ _))

theorem foldl_includePoint_offsetBy (o : Point) (ps : List Point) :
    ∀ r : Rect, (ps.map (Point.offsetBy o)).foldl Rect.includePoint (Rect.offsetBy o r)
      = Rect.offsetBy o (ps.foldl Rect.includePoint r) := by
  induction ps with
  | nil => intro r; rfl
  | cons p tl ih =>
      intro r
      simp only [List.map, List.foldl]
      rw [includePoint_offsetBy, ih]

theorem foldl_subpaths_offsetBy (o : Point) (pps : List (List Point)) :
    ∀ r : Rect,
      (pps.map (fun sub => sub.map (Point.offsetBy o))).foldl
          (fun r subpath => subpath.foldl Rect.includePoint r) (Rect.offsetBy o r)
        = Rect.offsetBy o
            (pps.foldl (fun r subpath => subpath.foldl Rect.includePoint r) r) := by
  induction pps with
  | nil => intro r; rfl
  | cons sub tl ih =>
      intro r
      simp only [List.map, List.foldl]
      rw [foldl_includePoint_offsetBy, ih]

theorem ofCorner_offsetBy (o p : Point) :
    Rect.ofCorner (Point.offsetBy o p) 0 0 = Rect.offsetBy o (Rect.ofCorner p 0 0) := by
  simp [Rect.ofCorner, Rect.offsetBy, Point.offsetBy]

/-! ### The Document's region as a fold over individual bounding boxes -/

theorem appendAll_region (shapes : List ShapeV) :
    ∀ d : Document, (appendAll d shapes).map Document.region
      = (minMaxList shapes).map fun bs => bs.foldl Rect.includeRect d.region := by
  induction shapes with
  | nil => intro d; rfl
  | cons s tl ih =>
      intro d
      rcases hmm : s.MinMax with _ | b
      · simp [appendAll, Document.append, minMaxList, hmm]
      · have hstep :
            (appendAll d (s :: tl)).map Document.region
              = (minMaxList tl).map fun bs =>
                  bs.foldl Rect.includeRect (d.region.includeRect b) := by
          simp only [appendAll, Document.append, hmm, Option.map_some, Option.bind_some]
          exact ih _
        rcases hbs : minMaxList tl with _ | bs
        · simp [hstep, minMaxList, hmm, hbs]
        · simp [hstep, minMaxList, hmm, hbs, List.foldl]

theorem minMaxList_fold_perm {ss ss' : List ShapeV} (h : List.Perm ss ss') :
    ∀ r : Rect,
      ((minMaxList ss).map fun bs => bs.foldl Rect.includeRect r)
        = (minMaxList ss').map fun bs => bs.foldl Rect.includeRect r := by
  induction h with
  | nil => intro r; rfl
  | @cons s l₁ l₂ _ ih =>
      intro r
      rcases hmm : s.MinMax with _ | b
      · simp [minMaxList, hmm]
      · have h1 := ih (r.includeRect b)
        rcases hbs : minMaxList l₁ with _ | bs <;>
          rcases hbs' : minMaxList l₂ with _ | bs' <;>
            rw [hbs, hbs'] at h1 <;>
              simp_all [minMaxList, hmm, List.foldl]
  | swap x y l =>
      intro r
      rcases hx : x.MinMax with _ | bx <;> rcases hy : y.MinMax with _ | by' <;>
        rcases hl : minMaxList l with _ | bs <;>
          simp [minMaxList, hx, hy, hl, List.foldl, includeRect_swap]
  | trans _ _ ih1 ih2 => intro r; rw [ih1 r, ih2 r]

theorem appendAll_toString_agnostic (shapes : List ShapeV) :
    ∀ d1 d2 : Document, d1.region = d2.region →
      d1.body_nodes_str = d2.body_nodes_str →
      (appendAll d1 shapes).map Document.toString
        = (appendAll d2 shapes).map Document.toString := by
  induction shapes with
  | nil =>
      intro d1 d2 hr hb
      simp [appendAll, Document.toString, hr, hb]
  | cons s tl ih =>
      intro d1 d2 hr hb
      rcases hmm : s.MinMax with _ | b
      · simp [appendAll, Document.append, hmm]
      · simp only [appendAll, Document.append, hmm, Option.map_some, Option.bind_some]
        exact ih _ _ (by simp [hr]) (by simp [hb])

/-! ### The `Path` subpath state machine -/

theorem pushPoint_eq : ∀ (s : List (List Point)) (p : Point), s ≠ [] →
    pushPoint s p = s.dropLast ++ [(s.getLast?.getD []) ++ [p]]
  | [], _, h => absurd rfl h
  | [l], p, _ => by simp [pushPoint]
  | l :: l2 :: tl, p, _ => by
      have ih := pushPoint_eq (l2 :: tl) p (by simp)
      simp [pushPoint, ih]

theorem startNewSubPath_ne_nil : ∀ s : List (List Point), startNewSubPath s ≠ []
  | [] => by simp [startNewSubPath]
  | [l] => by
      by_cases h : 0 < l.length <;> simp [startNewSubPath, h]
  | l :: l2 :: tl => by
      simp [startNewSubPath]

theorem startNewSubPath_idem :
    ∀ s : List (List Point), startNewSubPath (startNewSubPath s) = startNewSubPath s
  | [] => by simp [startNewSubPath]
  | [l] => by
      by_cases h : 0 < l.length <;>
        simp [startNewSubPath, h]
  | l :: l2 :: tl => by
      have ih := startNewSubPath_idem (l2 :: tl)
      rcases hr : startNewSubPath (l2 :: tl) with _ | ⟨r1, rtl⟩
      · exact absurd hr (startNewSubPath_ne_nil (l2 :: tl))
      · rw [hr] at ih
        show startNewSubPath (l :: startNewSubPath (l2 :: tl)) = _
        rw [hr]
        show l :: startNewSubPath (r1 :: rtl) = _
        rw [ih]
        show _ = l :: startNewSubPath (l2 :: tl)
        rw [hr]

theorem pathsInv_fresh : PathsInv freshPaths := by
  refine ⟨by simp [freshPaths, startNewSubPath], ?_⟩
  intro sub hsub
  simp [freshPaths, startNewSubPath, List.dropLast] at hsub

theorem pathsInv_push {s : List (List Point)} (p : Point) (h : PathsInv s) :
    PathsInv (pushPoint s p) := by
  rw [pushPoint_eq s p h.1]
  refine ⟨by simp, ?_⟩
  intro sub hsub
  rw [List.dropLast_concat] at hsub
  exact h.2 sub hsub

theorem pathsInv_start :
    ∀ s : List (List Point), PathsInv s → PathsInv (startNewSubPath s)
  | [], h => absurd rfl h.1
  | [l], _ => by
      by_cases h : 0 < l.length
      · refine ⟨by simp [startNewSubPath, h], ?_⟩
        intro sub hsub
        simp only [startNewSubPath, if_pos h, List.dropLast_cons₂, List.dropLast_single,
          List.mem_cons, List.not_mem_nil, or_false] at hsub
        subst hsub
        exact List.ne_nil_of_length_pos h
      · refine ⟨by simp [startNewSubPath, h], ?_⟩
        intro sub hsub
        simp [startNewSubPath, h, List.dropLast] at hsub
  | l :: l2 :: tl, h => by
      have htl : PathsInv (l2 :: tl) := by
        refine ⟨by simp, ?_⟩
        intro sub hsub
        exact h.2 sub (by simp [List.dropLast_cons₂]; exact Or.inr hsub)
      have ih := pathsInv_start (l2 :: tl) htl
      have hl : l ≠ [] := h.2 l (by simp [List.dropLast_cons₂])
      rcases hr : startNewSubPath (l2 :: tl) with _ | ⟨r1, rtl⟩
      · exact absurd hr (startNewSubPath_ne_nil (l2 :: tl))
      · rw [hr] at ih
        show PathsInv (l :: startNewSubPath (l2 :: tl))
        rw [hr]
        refine ⟨by simp, ?_⟩
        intro sub hsub
        rw [List.dropLast_cons₂] at hsub
        rcases List.mem_cons.mp hsub with h' | h'
        · subst h'; exact hl
        · exact ih.2 sub h'

theorem pathsInv_run (ops : List PathOp) : PathsInv (runPathOps ops) := by
  suffices h : ∀ s, PathsInv s → PathsInv (ops.foldl pathStep s) from
    h freshPaths pathsInv_fresh
  induction ops with
  | nil => intro s hs; exact hs
  | cons op tl ih =>
      intro s hs
      rcases op with p | _
      · exact ih _ (pathsInv_push p hs)
      · exact ih _ (pathsInv_start s hs)

/-! ### The fresh rect's fold against the extremal-corner folds -/

theorem includeFold_default_minPt_x (ps : List Point) :
    (ps.foldl Rect.includePoint Rect.default).minPt.x
      = ((Point.mk 0 0 :: ps).foldl pointMinStep (Point.mk 0 0)).x := by
  rw [foldl_includePoint_minPt_x ps Rect.default,
      foldl_pointMinStep_x (Point.mk 0 0 :: ps) (Point.mk 0 0)]
  simp only [List.map_cons, List.foldr_cons, Rect.default]
  exact (min_eq_right (foldr_min_le_init 0 (ps.map Point.x))).symm

theorem includeFold_default_minPt_y (ps : List Point) :
    (ps.foldl Rect.includePoint Rect.default).minPt.y
      = ((Point.mk 0 0 :: ps).foldl pointMinStep (Point.mk 0 0)).y := by
  rw [foldl_includePoint_minPt_y ps Rect.default,
      foldl_pointMinStep_y (Point.mk 0 0 :: ps) (Point.mk 0 0)]
  simp only [List.map_cons, List.foldr_cons, Rect.default]
  exact (min_eq_right (foldr_min_le_init 0 (ps.map Point.y))).symm

theorem includeFold_default_maxPt_x (ps : List Point) :
    (ps.foldl Rect.includePoint Rect.default).maxPt.x
      = ((Point.mk 0 0 :: ps).foldl pointMaxStep (Point.mk 0 0)).x := by
  rw [foldl_includePoint_maxPt_x ps Rect.default,
      foldl_pointMaxStep_x (Point.mk 0 0 :: ps) (Point.mk 0 0)]
  simp only [List.map_cons, List.foldr_cons, Rect.default]
  exact (max_eq_right (le_foldr_max_init 0 (ps.map Point.x))).symm

theorem includeFold_default_maxPt_y (ps : List Point) :
    (ps.foldl Rect.includePoint Rect.default).maxPt.y
      = ((Point.mk 0 0 :: ps).foldl pointMaxStep (Point.mk 0 0)).y := by
  rw [foldl_includePoint_maxPt_y ps Rect.default,
      foldl_pointMaxStep_y (Point.mk 0 0 :: ps) (Point.mk 0 0)]
  simp only [List.map_cons, List.foldr_cons, Rect.default]
  exact (max_eq_right (le_foldr_max_init 0 (ps.map Point.y))).symm

/-! ### The claims -/

/-- C4: computing the bounding box of a `Path` to which no point has
ever been added has no defined result.  A fresh `Path`'s subpath vector
is `[[]]` (one empty subpath), and `Path::MinMax` then evaluates
`paths.front().front()`: an *unchecked* access to the first point of an
empty subpath (`std::vector::front` on an empty vector), modelled as
the absent result — the computation does not produce the loud
absent-value error of the `optional` type the claim requires. -/
theorem C4_fresh_path_minmax_fails (f : Fill) (st : Stroke) :
    freshPaths = [[]] ∧ Path.MinMax ⟨freshPaths, f, st⟩ = none := by
  exact ⟨rfl, rfl⟩

/-- C5 counterexample: a `Fill` holding the transparent sentinel colour
serializes to the fragment `fill="transparent" `, which is not the empty
fragment the claim states. -/
theorem C5_counterexample :
    Fill.toString ⟨Color.ofDefault ColorDefaults.Transparent⟩ = "fill=\"transparent\" "
    ∧ Fill.toString ⟨Color.ofDefault ColorDefaults.Transparent⟩ ≠ "" := by
  decide

/-- C5 (amended): for every `Fill` whose colour is the transparent
sentinel, serializing produces the non-empty fragment
`fill="transparent" ` (a `fill` attribute is always emitted). -/
theorem C5_fill_transparent (f : Fill) (h : f.color.transparent = true) :
    Fill.toString f = "fill=\"transparent\" " ∧ Fill.toString f ≠ "" := by
  have hc : f.color.toString = "transparent" := by simp [Color.toString, h]
  constructor
  · simp only [Fill.toString, hc]
    decide
  · simp only [Fill.toString, hc]
    decide

/-- Witness for `C5_fill_transparent` at a concrete transparent colour. -/
theorem C5_fill_transparent_witness :
    Fill.toString ⟨⟨true, 5, 6, 7⟩⟩ = "fill=\"transparent\" " :=
  (C5_fill_transparent ⟨⟨true, 5, 6, 7⟩⟩ rfl).1

/-- C6: `translateX` subtracts from the width for the right-side origin
variants and applies offset-then-scale otherwise; `translateY`
symmetrically uses the height for the bottom-side variants; with origin
`TopLeft`, scale `1` and zero offset both transforms are the identity
(for every canvas dimensions). -/
theorem C6_translate_formulas (layout : Layout) (x y : ℚ) :
    (translateX x layout =
      if layout.origin = Origin.TopRight ∨ layout.origin = Origin.BottomRight then
        layout.dimensions.width - (x + layout.origin_offset.x) * layout.scale
      else (layout.origin_offset.x + x) * layout.scale)
    ∧ (translateY y layout =
      if layout.origin = Origin.BottomLeft ∨ layout.origin = Origin.BottomRight then
        layout.dimensions.height - (y + layout.origin_offset.y) * layout.scale
      else (layout.origin_offset.y + y) * layout.scale)
    ∧ (∀ dims : Dimensions,
        translateX x ⟨dims, 1, Origin.TopLeft, ⟨0, 0⟩⟩ = x
        ∧ translateY y ⟨dims, 1, Origin.TopLeft, ⟨0, 0⟩⟩ = y) := by
  refine ⟨?_, rfl, ?_⟩
  · simp only [translateX]
    rcases layout with ⟨dims, sc, origin, off⟩
    cases origin <;> simp
  · intro dims
    constructor <;> simp [translateX, translateY]

/-- C7: `getMinPoint`/`getMaxPoint` return an absent optional exactly
on the empty sequence; on a non-empty sequence they return the
synthesized per-axis extremal corner (each coordinate bounds every
input point's and is attained by some input point); dereferencing the
absent optional fails with the absent-value error. -/
theorem C7_min_max_point (ps : List Point) :
    (getMinPoint ps = none ↔ ps = [])
    ∧ (getMaxPoint ps = none ↔ ps = [])
    ∧ (∀ m, getMinPoint ps = some m →
        (∀ q ∈ ps, m.x ≤ q.x ∧ m.y ≤ q.y)
        ∧ (∃ q ∈ ps, q.x = m.x) ∧ (∃ q ∈ ps, q.y = m.y))
    ∧ (∀ m, getMaxPoint ps = some m →
        (∀ q ∈ ps, q.x ≤ m.x ∧ q.y ≤ m.y)
        ∧ (∃ q ∈ ps, q.x = m.x) ∧ (∃ q ∈ ps, q.y = m.y))
    ∧ (ps = [] →
        optionalDeref (getMinPoint ps) = Except.error "absent value"
        ∧ optionalDeref (getMaxPoint ps) = Except.error "absent value") := by
  rcases ps with _ | ⟨p, tl⟩
  · refine ⟨by simp [getMinPoint], by simp [getMaxPoint], ?_, ?_, ?_⟩
    · intro m hm; cases hm
    · intro m hm; cases hm
    · intro _; exact ⟨rfl, rfl⟩
  · refine ⟨by simp [getMinPoint], by simp [getMaxPoint], ?_, ?_, by simp⟩
    · intro m hm
      simp only [getMinPoint, Option.some.injEq] at hm
      subst hm
      refine ⟨?_, ?_, ?_⟩
      · intro q hq
        constructor
        · rw [foldl_pointMinStep_x]
          exact foldr_min_le_mem _ (List.mem_map_of_mem _ hq)
        · rw [foldl_pointMinStep_y]
          exact foldr_min_le_mem _ (List.mem_map_of_mem _ hq)
      · rw [foldl_pointMinStep_x]
        rcases foldr_min_attained p.x ((p :: tl).map Point.x) with h | h
        · exact ⟨p, List.mem_cons_self p tl, h.symm⟩
        · rcases List.mem_map.mp h with ⟨q, hq, hqx⟩
          exact ⟨q, hq, hqx⟩
      · rw [foldl_pointMinStep_y]
        rcases foldr_min_attained p.y ((p :: tl).map Point.y) with h | h
        · exact ⟨p, List.mem_cons_self p tl, h.symm⟩
        · rcases List.mem_map.mp h with ⟨q, hq, hqy⟩
          exact ⟨q, hq, hqy⟩
    · intro m hm
      simp only [getMaxPoint, Option.some.injEq] at hm
      subst hm
      refine ⟨?_, ?_, ?_⟩
      · intro q hq
        constructor
        · rw [foldl_pointMaxStep_x]
          exact mem_le_foldr_max _ (List.mem_map_of_mem _ hq)
        · rw [foldl_pointMaxStep_y]
          exact mem_le_foldr_max _ (List.mem_map_of_mem _ hq)
      · rw [foldl_pointMaxStep_x]
        rcases foldr_max_attained p.x ((p :: tl).map Point.x) with h | h
        · exact ⟨p, List.mem_cons_self p tl, h.symm⟩
        · rcases List.mem_map.mp h with ⟨q, hq, hqx⟩
          exact ⟨q, hq, hqx⟩
      · rw [foldl_pointMaxStep_y]
        rcases foldr_max_attained p.y ((p :: tl).map Point.y) with h | h
        · exact ⟨p, List.mem_cons_self p tl, h.symm⟩
        · rcases List.mem_map.mp h with ⟨q, hq, hqy⟩
          exact ⟨q, hq, hqy⟩

/-- Witness for `C7_min_max_point`: the extremal corner of
`[(1,5), (2,-3)]` is `(1,-3)`, and it bounds the member `(2,-3)`. -/
theorem C7_min_max_point_witness :
    (Point.mk 1 (-3)).x ≤ (Point.mk 2 (-3)).x
    ∧ (Point.mk 1 (-3)).y ≤ (Point.mk 2 (-3)).y :=
  ((C7_min_max_point [Point.mk 1 5, Point.mk 2 (-3)]).2.2.1
      (Point.mk 1 (-3)) (by decide)).1 (Point.mk 2 (-3)) (by decide)

/-- C8: a `Stroke` with any negative width serializes to the empty
fragment (the sentinel), while width `0` serializes a non-empty
fragment carrying `stroke-width="0"` and a `stroke` colour attribute. -/
theorem C8_stroke_sentinel (c : Color) (ns : Bool) :
    (∀ w : ℚ, w < 0 → Stroke.toString ⟨w, c, ns⟩ = "")
    ∧ Stroke.toString ⟨-1, c, ns⟩ = ""
    ∧ Stroke.toString ⟨0, c, ns⟩
        = attrStr "stroke-width" "0" "" ++ attrStr "stroke" c.toString ""
          ++ (if ns then attrStr "vector-effect" "non-scaling-stroke" "" else "")
    ∧ Stroke.toString ⟨0, c, ns⟩ ≠ "" := by
  have hfmt : fmtQ 0 = "0" := by decide
  have h3 : Stroke.toString ⟨0, c, ns⟩
      = attrStr "stroke-width" "0" "" ++ attrStr "stroke" c.toString ""
        ++ (if ns then attrStr "vector-effect" "non-scaling-stroke" "" else "") := by
    simp [Stroke.toString, hfmt]
  refine ⟨?_, ?_, h3, ?_⟩
  · intro w hw; simp [Stroke.toString, hw]
  · simp [Stroke.toString]
  · rw [h3]
    intro hcontra
    have hlen := congrArg String.length hcontra
    have hA : (attrStr "stroke-width" "0" "").length = 17 := by decide
    have h0 : ("" : String).length = 0 := rfl
    simp only [String.length_append, hA, h0] at hlen
    omega

/-- Witness for `C8_stroke_sentinel` at width `-2`. -/
theorem C8_stroke_sentinel_witness :
    Stroke.toString ⟨-2, Color.ofDefault ColorDefaults.Red, false⟩ = "" :=
  (C8_stroke_sentinel (Color.ofDefault ColorDefaults.Red) false).1 (-2) (by norm_num)

/-- C2 counterexample: including the single point `(5,5)` into a
freshly constructed `Rect` yields `minPt = (0,0)` — the default
corner — while the per-axis minimum of the included points (computed by
the library's own `getMinPoint`) is `(5,5)`. -/
theorem C2_counterexample :
    Rect.default.includePoint ⟨5, 5⟩ = ⟨⟨0, 0⟩, ⟨5, 5⟩⟩
    ∧ getMinPoint [⟨5, 5⟩] = some ⟨5, 5⟩
    ∧ (Rect.default.includePoint ⟨5, 5⟩).minPt ≠ Point.mk 5 5 := by
  decide

/-- C2 (amended): for every non-empty sequence of points included into
a freshly constructed `Rect`, `minPt`/`maxPt` are the per-axis
min/max of the included points *together with the fresh rect's initial
corner `(0,0)`* (the extremal corners of `(0,0)` prepended to the
sequence), and the result is the same for every ordering. -/
theorem C2_include_fold (ps ps' : List Point) (_hne : ps ≠ [])
    (h2 : List.Perm ps ps') :
    (∃ m M, getMinPoint (Point.mk 0 0 :: ps) = some m
      ∧ getMaxPoint (Point.mk 0 0 :: ps) = some M
      ∧ ps.foldl Rect.includePoint Rect.default = ⟨m, M⟩)
    ∧ ps.foldl Rect.includePoint Rect.default
        = ps'.foldl Rect.includePoint Rect.default := by
  refine ⟨⟨(Point.mk 0 0 :: ps).foldl pointMinStep (Point.mk 0 0),
          (Point.mk 0 0 :: ps).foldl pointMaxStep (Point.mk 0 0), rfl, rfl, ?_⟩,
        foldl_includePoint_perm h2 Rect.default⟩
  exact Rect.ext
    (Point.ext (includeFold_default_minPt_x ps) (includeFold_default_minPt_y ps))
    (Point.ext (includeFold_default_maxPt_x ps) (includeFold_default_maxPt_y ps))

/-- Witness for `C2_include_fold`: two concrete points in both orders. -/
theorem C2_include_fold_witness :
    [Point.mk 5 5, Point.mk (-1) 2].foldl Rect.includePoint Rect.default
      = [Point.mk (-1) 2, Point.mk 5 5].foldl Rect.includePoint Rect.default :=
  (C2_include_fold [Point.mk 5 5, Point.mk (-1) 2]
      [Point.mk (-1) 2, Point.mk 5 5] (by decide)
      (List.Perm.swap (Point.mk (-1) 2) (Point.mk 5 5) [])).2

/-- C1 counterexample: appending the single rectangle with corner
`(10,10)` and extent `2 × 2` to a fresh `Document` leaves
`region = {(0,0),(12,12)}` — the union of the default zero-rect and the
shape's box — whereas the shape's individual bounding box (the union of
the one-element collection) is `{(10,10),(12,12)}`. -/
theorem C1_counterexample :
    (appendAll (mkDocument "out.svg" Layout.default)
        [ShapeV.rectangle ⟨⟨10, 10⟩, 2, 2,
          ⟨Color.ofDefault ColorDefaults.Transparent⟩,
          ⟨-1, Color.ofDefault ColorDefaults.Transparent, false⟩⟩]).map Document.region
      = some ⟨⟨0, 0⟩, ⟨12, 12⟩⟩
    ∧ minMaxList [ShapeV.rectangle ⟨⟨10, 10⟩, 2, 2,
          ⟨Color.ofDefault ColorDefaults.Transparent⟩,
          ⟨-1, Color.ofDefault ColorDefaults.Transparent, false⟩⟩]
        = some [⟨⟨10, 10⟩, ⟨12, 12⟩⟩]
    ∧ (Rect.mk ⟨0, 0⟩ ⟨12, 12⟩ ≠ Rect.mk ⟨10, 10⟩ ⟨12, 12⟩) := by
  refine ⟨?_, ?_, ?_⟩
  · simp only [appendAll, Document.append, ShapeV.MinMax, Rectangle.MinMax, mkDocument,
      Rect.ofCorner, Rect.includeRect, includePoint_def, Rect.default, minMaxList,
      Option.map_some, Option.bind_some, Option.some.injEq]
    norm_num [Rect.mk.injEq, Point.mk.injEq, min_def, max_def]
  · simp only [minMaxList, ShapeV.MinMax, Rectangle.MinMax, Rect.ofCorner, Option.some.injEq]
    norm_num [Rect.mk.injEq, Point.mk.injEq]
  · simp [Rect.mk.injEq, Point.mk.injEq]

/-- C1 (amended): after appending any finite list of shapes to a fresh
`Document`, `region` equals the fold of `Rect.include` over the shapes'
individual bounding boxes *seeded with the default zero-rect* (the
union of the boxes and the degenerate zero-rect), and this region is
independent of the append order. -/
theorem C1_region_union (fn : String) (l : Layout) (shapes shapes' : List ShapeV)
    (h : List.Perm shapes shapes') :
    (appendAll (mkDocument fn l) shapes).map Document.region
      = (minMaxList shapes).map (fun bs => bs.foldl Rect.includeRect Rect.default)
    ∧ (appendAll (mkDocument fn l) shapes).map Document.region
      = (appendAll (mkDocument fn l) shapes').map Document.region := by
  have h1 := appendAll_region shapes (mkDocument fn l)
  have h2 := appendAll_region shapes' (mkDocument fn l)
  refine ⟨h1, ?_⟩
  rw [h1, h2]
  exact minMaxList_fold_perm h Rect.default

/-- Witness for `C1_region_union`: a circle and a line appended in both
orders give the same region. -/
theorem C1_region_union_witness :
    (appendAll (mkDocument "a.svg" Layout.default)
        [ShapeV.circle ⟨⟨1, 2⟩, 3, ⟨Color.ofDefault ColorDefaults.Red⟩,
            ⟨-1, Color.ofDefault ColorDefaults.Transparent, false⟩⟩,
          ShapeV.line ⟨⟨0, 0⟩, ⟨7, -4⟩,
            ⟨1, Color.ofDefault ColorDefaults.Black, false⟩⟩]).map Document.region
      = (appendAll (mkDocument "a.svg" Layout.default)
          [ShapeV.line ⟨⟨0, 0⟩, ⟨7, -4⟩,
              ⟨1, Color.ofDefault ColorDefaults.Black, false⟩⟩,
            ShapeV.circle ⟨⟨1, 2⟩, 3, ⟨Color.ofDefault ColorDefaults.Red⟩,
              ⟨-1, Color.ofDefault ColorDefaults.Transparent, false⟩⟩]).map Document.region :=
  (C1_region_union "a.svg" Layout.default _ _
      (List.Perm.swap
        (ShapeV.line ⟨⟨0, 0⟩, ⟨7, -4⟩, ⟨1, Color.ofDefault ColorDefaults.Black, false⟩⟩)
        (ShapeV.circle ⟨⟨1, 2⟩, 3, ⟨Color.ofDefault ColorDefaults.Red⟩,
          ⟨-1, Color.ofDefault ColorDefaults.Transparent, false⟩⟩) [])).2

/-- C3 counterexample: translating an *empty* `Polygon` by `(1,1)` and
taking its bounding box yields the default zero-rect, while translating
the original bounding box's corners by `(1,1)` yields the degenerate
rect at `(1,1)`. -/
theorem C3_counterexample :
    ((ShapeV.polygon ⟨[], ⟨Color.ofDefault ColorDefaults.Transparent⟩,
        ⟨-1, Color.ofDefault ColorDefaults.Transparent, false⟩⟩).offset ⟨1, 1⟩).MinMax
      = some ⟨⟨0, 0⟩, ⟨0, 0⟩⟩
    ∧ ((ShapeV.polygon ⟨[], ⟨Color.ofDefault ColorDefaults.Transparent⟩,
          ⟨-1, Color.ofDefault ColorDefaults.Transparent, false⟩⟩).MinMax).map
        (Rect.offsetBy ⟨1, 1⟩) = some ⟨⟨1, 1⟩, ⟨1, 1⟩⟩
    ∧ (some (Rect.mk ⟨0, 0⟩ ⟨0, 0⟩) ≠ some (Rect.mk ⟨1, 1⟩ ⟨1, 1⟩)) := by
  refine ⟨?_, ?_, ?_⟩
  · simp [ShapeV.offset, Polygon.offset, ShapeV.MinMax, Polygon.MinMax, Rect.default]
  · simp only [ShapeV.MinMax, Polygon.MinMax, Option.map_some, Option.some.injEq]
    norm_num [Rect.offsetBy, Point.offsetBy, Rect.default, Rect.mk.injEq, Point.mk.injEq]
  · simp [Rect.mk.injEq, Point.mk.injEq]

/-- C3 (amended): for every shape variant whose point sequence is
non-empty where one exists (Circle, Elipse, Rectangle, Line, Text
always; Polygon, Polyline and Path with at least one entry), the
bounding box of the translated shape is the original bounding box with
both corners translated by the same offset. -/
theorem C3_offset_minmax (s : ShapeV) (o : Point) (h : s.anchored) :
    (s.offset o).MinMax = (s.MinMax).map (Rect.offsetBy o) := by
  cases s with
  | circle c =>
      simp only [ShapeV.offset, ShapeV.MinMax, Circle.offset, Circle.MinMax,
        Rect.ofCorner, Rect.offsetBy, Point.offsetBy, Option.map_some]
      refine congrArg some ?_
      refine congrArg₂ Rect.mk (congrArg₂ Point.mk ?_ ?_) (congrArg₂ Point.mk ?_ ?_) <;> ring
  | elipse e =>
      simp only [ShapeV.offset, ShapeV.MinMax, Elipse.offset, Elipse.MinMax,
        Rect.ofCorner, Rect.offsetBy, Point.offsetBy, Option.map_some]
      refine congrArg some ?_
      refine congrArg₂ Rect.mk (congrArg₂ Point.mk ?_ ?_) (congrArg₂ Point.mk ?_ ?_) <;> ring
  | rectangle r =>
      simp only [ShapeV.offset, ShapeV.MinMax, Rectangle.offset, Rectangle.MinMax,
        Rect.ofCorner, Rect.offsetBy, Point.offsetBy, Option.map_some]
      refine congrArg some ?_
      refine congrArg₂ Rect.mk (congrArg₂ Point.mk ?_ ?_) (congrArg₂ Point.mk ?_ ?_) <;> ring
  | line l =>
      simp only [ShapeV.offset, ShapeV.MinMax, Line.offset, Line.MinMax, Option.map_some]
      refine congrArg some ?_
      rw [ofCorner_offsetBy, includePoint_offsetBy]
  | polygon pg =>
      rcases hps : pg.points with _ | ⟨p, tl⟩
      · exact absurd hps (by simpa [ShapeV.anchored] using h)
      · simp only [ShapeV.offset, ShapeV.MinMax, Polygon.offset, Polygon.MinMax, hps,
          List.map, Option.map_some]
        refine congrArg some ?_
        rw [ofCorner_offsetBy]
        exact foldl_includePoint_offsetBy o (p :: tl) (Rect.ofCorner p 0 0)
  | polyline pl =>
      rcases hps : pl.points with _ | ⟨p, tl⟩
      · exact absurd hps (by simpa [ShapeV.anchored] using h)
      · simp only [ShapeV.offset, ShapeV.MinMax, Polyline.offset, Polyline.MinMax, hps,
          List.map, Option.map_some]
        refine congrArg some ?_
        rw [ofCorner_offsetBy]
        exact foldl_includePoint_offsetBy o (p :: tl) (Rect.ofCorner p 0 0)
  | path pa =>
      rcases hpp : pa.paths with _ | ⟨first, tl⟩
      · exact absurd hpp (by simpa [ShapeV.anchored] using h)
      · rcases first with _ | ⟨p, sub⟩
        · simp [ShapeV.offset, ShapeV.MinMax, Path.offset, Path.MinMax, hpp]
        · simp only [ShapeV.offset, ShapeV.MinMax, Path.offset, Path.MinMax, hpp,
            List.map, Option.map_some]
          refine congrArg some ?_
          rw [ofCorner_offsetBy]
          exact foldl_subpaths_offsetBy o ((p :: sub) :: tl) (Rect.ofCorner p 0 0)
  | text t =>
      simp only [ShapeV.offset, ShapeV.MinMax, Text.offset, Text.MinMax,
        Rect.ofCorner, Rect.offsetBy, Point.offsetBy, Option.map_some]
      refine congrArg some ?_
      refine congrArg₂ Rect.mk (congrArg₂ Point.mk ?_ ?_) (congrArg₂ Point.mk ?_ ?_) <;> ring

/-- Witness for `C3_offset_minmax`: a one-point polygon translated by
`(4,5)`. -/
theorem C3_offset_minmax_witness :
    ((ShapeV.polygon ⟨[⟨2, 3⟩], ⟨Color.ofDefault ColorDefaults.Red⟩,
        ⟨-1, Color.ofDefault ColorDefaults.Transparent, false⟩⟩).offset ⟨4, 5⟩).MinMax
      = ((ShapeV.polygon ⟨[⟨2, 3⟩], ⟨Color.ofDefault ColorDefaults.Red⟩,
          ⟨-1, Color.ofDefault ColorDefaults.Transparent, false⟩⟩).MinMax).map
          (Rect.offsetBy ⟨4, 5⟩) :=
  C3_offset_minmax _ ⟨4, 5⟩ (by simp [ShapeV.anchored])

/-- C9: after any finite sequence of point-appends and
`startNewSubPath` calls on a fresh `Path`, the subpath vector is
non-empty and every subpath except possibly the last is non-empty;
appending a point rewrites exactly the last subpath (the subpath count
is unchanged); and `startNewSubPath` is idempotent, so repeated calls
with no intervening append add at most one empty subpath. -/
theorem C9_path_subpath_invariant (ops : List PathOp) :
    PathsInv (runPathOps ops)
    ∧ (∀ (s : List (List Point)) (p : Point), s ≠ [] →
        pushPoint s p = s.dropLast ++ [(s.getLast?.getD []) ++ [p]]
        ∧ (pushPoint s p).length = s.length)
    ∧ (∀ s : List (List Point),
        startNewSubPath (startNewSubPath s) = startNewSubPath s) := by
  refine ⟨pathsInv_run ops, ?_, startNewSubPath_idem⟩
  intro s p hs
  refine ⟨pushPoint_eq s p hs, ?_⟩
  rw [pushPoint_eq s p hs]
  have hpos : 0 < s.length := List.length_pos.mpr hs
  simp only [List.length_append, List.length_dropLast, List.length_cons,
    List.length_nil]
  omega

/-- Witness for `C9_path_subpath_invariant`: pushing a point onto a
one-subpath state extends that subpath in place. -/
theorem C9_path_subpath_invariant_witness :
    pushPoint [[Point.mk 0 0]] (Point.mk 3 4)
      = [[Point.mk 0 0]].dropLast
        ++ [([[Point.mk 0 0]].getLast?.getD []) ++ [Point.mk 3 4]] :=
  ((C9_path_subpath_invariant []).2.1 [[Point.mk 0 0]] (Point.mk 3 4) (by decide)).1

/-- C10: the serialized output of a `Document` never depends on the
stored `Layout`: the same file name and the same shape appends with two
different layouts give byte-identical `toString` output. -/
theorem C10_layout_agnostic (fn : String) (l1 l2 : Layout) (shapes : List ShapeV) :
    (appendAll (mkDocument fn l1) shapes).map Document.toString
      = (appendAll (mkDocument fn l2) shapes).map Document.toString :=
  appendAll_toString_agnostic shapes _ _ rfl rfl

end svg
